import Mathlib

/-!
Verification development for the rvelox interpreter (Lox-family bytecode
VM written in Rust).  The Rust sources are shallowly embedded: structs
become structures, methods become functions on those structures, `f64`
numbers are modelled as exact fractions (see `F64`; exact on every value
the claims touch), and every Rust code path that can panic (unwrap of `None`, out-of-bounds
index, `expect`) is modelled by returning `none`.  Output produced with
`print!`/`println!`/`eprintln!` is threaded through the state as lists of
printed lines.
-/

namespace RVelox

/-- A single quote character, used to assemble error-message strings. -/
def squote : String := String.singleton (Char.ofNat 39)

/-! ### object.rs -/

/-- `ObjRef<T>` from object.rs: an index into the allocator's object vector.
The `PhantomData` marker carries no runtime data.  Equality compares the
index, as in the source's `PartialEq` impl. -/
structure ObjRef where
  index : Nat
deriving DecidableEq, Repr

/-- `ObjAllocator` from object.rs.  `objects` models the `Vec<ObjHeader>`
(each header only boxes its string; the `size` bookkeeping field is a
memory-layout detail no behaviour depends on), `strings` models the
content-to-handle `HashMap` as an association list. -/
structure ObjAllocator where
  objects : List String
  strings : List (String × ObjRef)
deriving DecidableEq, Repr

def ObjAllocator.new : ObjAllocator := ⟨[], []⟩

/-- `ObjAllocator::alloc`: push the object, then take `self.objects.len()`
as the handle's index.  Note the source computes the length AFTER the
push, so the returned index points one slot past the stored object. -/
def ObjAllocator.alloc (a : ObjAllocator) (obj : String) : ObjRef × ObjAllocator :=
  let objects := a.objects ++ [obj]
  let index := objects.length
  (⟨index⟩, { a with objects := objects })

/-- Lookup in the content-to-handle map (`HashMap::get` keyed by string). -/
def stringsGet : List (String × ObjRef) → String → Option ObjRef
  | [], _ => none
  | (k, v) :: rest, s => if k = s then some v else stringsGet rest s

/-- `ObjAllocator::intern`: return the existing handle for `name` if the
map has one, otherwise allocate, record the new handle and return it. -/
def ObjAllocator.intern (a : ObjAllocator) (name : String) : ObjRef × ObjAllocator :=
  match stringsGet a.strings name with
  | some value => (value, a)
  | none =>
    let p := a.alloc name
    (p.1, { p.2 with strings := p.2.strings ++ [(name, p.1)] })

/-- `ObjAllocator::deref`: index `objects` with the handle's index.  The
Rust indexing panics when the index is out of bounds, modelled by `none`. -/
def ObjAllocator.deref (a : ObjAllocator) (reference : ObjRef) : Option String :=
  a.objects.get? reference.index

/-! ### value.rs -/

/-- IEEE-754 doubles (`f64`) are modelled as exact fractions: integer
numerator over integer denominator, the denominator positive for every
value the embedded code constructs.  The arithmetic is exact rational
arithmetic without normalisation, which agrees with `f64` arithmetic on
every value any claim exercises (small integers); `eqb`/`gt`/`lt`
compare by numeric value (cross-multiplication), as `f64` comparison
does.  `f64` division by zero (±∞/NaN; spec §4.5: explicitly not an
error) has no rational counterpart; no claim exercises division. -/
structure F64 where
  num : Int
  den : Int
deriving DecidableEq, Repr

/-- The double with integer value `n`. -/
def F64.ofInt (n : Int) : F64 := ⟨n, 1⟩

def F64.add (a b : F64) : F64 := ⟨a.num * b.den + b.num * a.den, a.den * b.den⟩

def F64.sub (a b : F64) : F64 := ⟨a.num * b.den - b.num * a.den, a.den * b.den⟩

def F64.mul (a b : F64) : F64 := ⟨a.num * b.num, a.den * b.den⟩

def F64.div (a b : F64) : F64 := ⟨a.num * b.den, a.den * b.num⟩

def F64.neg (a : F64) : F64 := ⟨-a.num, a.den⟩

/-- `f64` equality, by numeric value. -/
def F64.eqb (a b : F64) : Bool := a.num * b.den == b.num * a.den

/-- `f64` strict greater-than, by numeric value. -/
def F64.gt (a b : F64) : Bool := decide (b.num * a.den < a.num * b.den)

/-- `f64` strict less-than, by numeric value. -/
def F64.lt (a b : F64) : Bool := decide (a.num * b.den < b.num * a.den)

/-- `Value` from value.rs.  Constructor names are lowercased
(`Value::Nil` is `Value.nil`, etc.) so they do not shadow the builtin
`Bool` and `String` types. -/
inductive Value where
  | nil
  | bool (b : Bool)
  | number (n : F64)
  | string (ref : ObjRef)
deriving DecidableEq, Repr

/-- `Value` equality: the `derive PartialEq` of value.rs — same variant
and equal payloads, with `Number` compared as `f64` (by value) and
`String` by handle. -/
def Value.eqb : Value → Value → Bool
  | .nil, .nil => true
  | .bool a, .bool b => a == b
  | .number a, .number b => F64.eqb a b
  | .string a, .string b => a == b
  | _, _ => false

/-- `Value::print` renders the value; the text written to stdout is
returned.  For `Number`, Rust's `{}` formatting of an `f64` prints
integral values without a decimal point; every number printed in any
claim is integral with denominator literally 1, so the non-integral
rendering (shortest round-tripping decimal) is represented by the
fraction's numerator/denominator text. -/
def Value.print : Value → String
  | .nil => "nil"
  | .bool value => toString value
  | .number value =>
    if value.den = 1 then toString value.num
    else toString value.num ++ "/" ++ toString value.den
  | .string _ => "Some String"

/-- `Value::is_falsy`: `Bool(b)` is falsy iff `!b`, `Nil` is falsy,
everything else is truthy. -/
def Value.is_falsy : Value → Bool
  | .bool value => !value
  | .nil => true
  | _ => false

/-! ### chunk.rs -/

/-- Modelled from the spec: the `Op` enum in src/src/chunk.rs belongs to an
older expression-only variant and lacks `Pop`, `GetGlobal`,
`DefineGlobal`, `SetGlobal` and `Print`, which src/src/vm.rs and
src/src/compiler.rs both use; spec §9 resolves to the complete
statements-and-globals variant, and spec §6 fixes the opcode set.  The
concrete numbering is implementation-defined (spec §6), so the enum is
listed with the missing opcodes inserted in their clox positions. -/
inductive Op where
  | Constant
  | Nil
  | True
  | False
  | Pop
  | GetGlobal
  | DefineGlobal
  | SetGlobal
  | Equal
  | Greater
  | Less
  | Add
  | Subtract
  | Multiply
  | Divide
  | Not
  | Negate
  | Print
  | Return
deriving DecidableEq, Repr

/-- `Op as u8` (the `Into<u8>` impl): the discriminant. -/
def Op.toByte : Op → Nat
  | .Constant => 0
  | .Nil => 1
  | .True => 2
  | .False => 3
  | .Pop => 4
  | .GetGlobal => 5
  | .DefineGlobal => 6
  | .SetGlobal => 7
  | .Equal => 8
  | .Greater => 9
  | .Less => 10
  | .Add => 11
  | .Subtract => 12
  | .Multiply => 13
  | .Divide => 14
  | .Not => 15
  | .Negate => 16
  | .Print => 17
  | .Return => 18

/-- `TryFrom<u8> for Op`: decode a byte back to an opcode. -/
def Op.ofByte : Nat → Option Op
  | 0 => some .Constant
  | 1 => some .Nil
  | 2 => some .True
  | 3 => some .False
  | 4 => some .Pop
  | 5 => some .GetGlobal
  | 6 => some .DefineGlobal
  | 7 => some .SetGlobal
  | 8 => some .Equal
  | 9 => some .Greater
  | 10 => some .Less
  | 11 => some .Add
  | 12 => some .Subtract
  | 13 => some .Multiply
  | 14 => some .Divide
  | 15 => some .Not
  | 16 => some .Negate
  | 17 => some .Print
  | 18 => some .Return
  | _ => none

/-- `Chunk` from chunk.rs: bytecode bytes, constant pool, per-byte lines. -/
structure Chunk where
  code : List Nat
  constants : List Value
  lines : List Nat
deriving DecidableEq, Repr

def Chunk.new : Chunk := ⟨[], [], []⟩

/-- `Chunk::add_constant`: append and return the new index. -/
def Chunk.add_constant (c : Chunk) (value : Value) : Nat × Chunk :=
  let location := c.constants.length
  (location, { c with constants := c.constants ++ [value] })

/-- `Chunk::write`: append one code byte and its source line. -/
def Chunk.write (c : Chunk) (code : Nat) (line : Nat) : Chunk :=
  { c with code := c.code ++ [code], lines := c.lines ++ [line] }

/-! ### scanner.rs -/

/-- `TokenType` from scanner.rs.  The source really names the slash token
`Salsh` (spec §9 notes it is the misnamed `Slash`); the misspelling is
kept.  `Error` carries the human-readable message, as in the source. -/
inductive TokenType where
  | LeftParen
  | RightParen
  | LeftBrace
  | RightBrace
  | Dot
  | Comma
  | Semicolon
  | Plus
  | Minus
  | Salsh
  | Star
  | Bang
  | BangEqual
  | Equal
  | EqualEqual
  | Less
  | LessEqual
  | Greater
  | GreaterEqual
  | Var
  | Fun
  | Class
  | This
  | Super
  | If
  | Else
  | For
  | While
  | Return
  | Print
  | And
  | Or
  | True
  | False
  | Nil
  | Number
  | String
  | Identifier
  | Error (message : String)
  | Eof
deriving DecidableEq, Repr

/-- `Token` from scanner.rs: kind plus the `[start, start+length)` span
into the source and the line it begins on. -/
structure Token where
  token_type : TokenType
  start : Nat
  length : Nat
  line : Nat
deriving DecidableEq, Repr

/-- The lexeme a token denotes: the span of the source it covers.  (The
compiler variant stores a `lexeme: &str` directly in its token; with the
scanner variant's `start`/`length` representation the lexeme is recovered
from the source, which is what a borrowed slice is.) -/
def Token.lexeme (source : List Char) (t : Token) : List Char :=
  (source.drop t.start).take t.length

/-- `Scanner` from scanner.rs.  The source string is kept as its
character list; `current`/`start` are cursor offsets.  (Rust's
`is_at_end` compares against the byte length while `chars().nth` counts
characters; the two agree on the ASCII sources all claims use.) -/
structure Scanner where
  source : List Char
  line : Nat
  start : Nat
  current : Nat
deriving DecidableEq, Repr

def Scanner.new (source : List Char) : Scanner :=
  { source := source, line := 1, start := 0, current := 0 }

/-- `Scanner::is_at_end`: `current == source.len()`. -/
def Scanner.is_at_end (s : Scanner) : Bool :=
  s.current == s.source.length

/-- `Scanner::peek`: `chars().nth(current).unwrap()` — panics (`none`)
past the end of the source. -/
def Scanner.peek (s : Scanner) : Option Char :=
  s.source.get? s.current

/-- `Scanner::peek_next`.  Note the source bug: after the end-of-input
guard it reads `chars().nth(self.current)` — the character at the cursor,
not the one after it. -/
def Scanner.peek_next (s : Scanner) : Option Char :=
  if s.is_at_end then some (Char.ofNat 0)
  else s.source.get? s.current

/-- `Scanner::advance`: step the cursor and return the character passed
over (unwrap, so `none` past the end). -/
def Scanner.advance (s : Scanner) : Option (Char × Scanner) :=
  let s' : Scanner := { s with current := s.current + 1 }
  (s.source.get? (s'.current - 1)).map (fun c => (c, s'))

/-- `Scanner::make_token`: token over the `[start, current)` span. -/
def Scanner.make_token (s : Scanner) (token_type : TokenType) : Token :=
  { token_type := token_type, start := s.start, length := s.current - s.start, line := s.line }

/-- `Scanner::error_token`. -/
def Scanner.error_token (s : Scanner) (message : String) : Token :=
  s.make_token (TokenType.Error message)

/-- `Scanner::match_character`: consume the next character iff it equals
`expected`. -/
def Scanner.match_character (s : Scanner) (expected : Char) : Bool × Scanner :=
  if s.is_at_end then (false, s)
  else
    match s.source.get? s.current with
    | none => (false, s)
    | some c =>
      if c = expected then (true, { s with current := s.current + 1 })
      else (false, s)

def is_alpha (character : Char) : Bool :=
  (97 ≤ character.toNat && character.toNat ≤ 122) ||
  (65 ≤ character.toNat && character.toNat ≤ 90) ||
  character == Char.ofNat 95

def is_digit (character : Char) : Bool :=
  48 ≤ character.toNat && character.toNat ≤ 57

/-- `Scanner::check_keyword`: keyword iff the token length matches and
the source slice `[kstart, kstart+klength)` equals `rest`.  Note the
source bug kept here: it skips `kstart` characters from the WHOLE source
(`self.source.chars().skip(start)`), not from the token's own start, so
the comparison is only meaningful for a token that begins at offset 0. -/
def Scanner.check_keyword (s : Scanner) (kstart klength : Nat) (rest : List Char)
    (token_type : TokenType) : TokenType :=
  if s.current - s.start = kstart + klength ∧ (s.source.drop kstart).take klength = rest
  then token_type
  else TokenType.Identifier

/-- `Scanner::identifier_type`: the keyword trie over the first one or
two characters.  The unwraps on `chars().nth` are modelled by `none`. -/
def Scanner.identifier_type (s : Scanner) : Option TokenType :=
  match s.source.get? s.start with
  | none => none
  | some c =>
    match c with
    | 'a' => some (s.check_keyword 1 2 [ 'n', 'd'] TokenType.And)
    | 'c' => some (s.check_keyword 1 4 [ 'l', 'a', 's', 's'] TokenType.Class)
    | 'e' => some (s.check_keyword 1 3 [ 'l', 's', 'e'] TokenType.Else)
    | 'f' =>
      if s.current - s.start > 1 then
        match s.source.get? (s.start + 1) with
        | none => none
        | some c2 =>
          match c2 with
          | 'a' => some (s.check_keyword 2 3 [ 'l', 's', 'e'] TokenType.False)
          | 'o' => some (s.check_keyword 2 1 [ 'r'] TokenType.For)
          | 'u' => some (s.check_keyword 2 1 [ 'n'] TokenType.Fun)
          | _ => some TokenType.Identifier
      else some TokenType.Identifier
    | 'i' => some (s.check_keyword 1 1 [ 'f'] TokenType.If)
    | 'n' => some (s.check_keyword 1 2 [ 'i', 'l'] TokenType.Nil)
    | 'o' => some (s.check_keyword 1 1 [ 'r'] TokenType.Or)
    | 'p' => some (s.check_keyword 1 4 [ 'r', 'i', 'n', 't'] TokenType.Print)
    | 'r' => some (s.check_keyword 1 5 [ 'e', 't', 'u', 'r', 'n'] TokenType.Return)
    | 's' => some (s.check_keyword 1 4 [ 'u', 'p', 'e', 'r'] TokenType.Super)
    | 't' =>
      if s.current - s.start > 1 then
        match s.source.get? (s.start + 1) with
        | none => none
        | some c2 =>
          match c2 with
          | 'h' => some (s.check_keyword 2 3 [ 'i', 's'] TokenType.This)
          | 'r' => some (s.check_keyword 2 1 [ 'u', 'e'] TokenType.True)
          | _ => some TokenType.Identifier
      else some TokenType.Identifier
    | 'v' => some (s.check_keyword 1 2 [ 'a', 'r'] TokenType.Var)
    | 'w' => some (s.check_keyword 1 4 [ 'h', 'i', 'l', 'e'] TokenType.While)
    | _ => some TokenType.Identifier

/-- The `while is_alpha(peek) || is_digit(peek)` loop of
`Scanner::identifier`.  `peek` panics (`none`) at the end of input. -/
def Scanner.identifier_loop : Nat → Scanner → Option Scanner
  | 0, _ => none
  | fuel + 1, s =>
    match s.peek with
    | none => none
    | some c =>
      if is_alpha c || is_digit c then
        match s.advance with
        | none => none
        | some (_, s') => Scanner.identifier_loop fuel s'
      else some s

/-- `Scanner::identifier`. -/
def Scanner.identifier (s : Scanner) : Option (Token × Scanner) :=
  match Scanner.identifier_loop (s.source.length + 1) s with
  | none => none
  | some s =>
    match s.identifier_type with
    | none => none
    | some token_type => some (s.make_token token_type, s)

/-- The `while is_digit(peek)` loop of `Scanner::number`. -/
def Scanner.digit_loop : Nat → Scanner → Option Scanner
  | 0, _ => none
  | fuel + 1, s =>
    match s.peek with
    | none => none
    | some c =>
      if is_digit c then
        match s.advance with
        | none => none
        | some (_, s') => Scanner.digit_loop fuel s'
      else some s

/-- `Scanner::number`: digits, then an optional fraction.  Because of the
`peek_next` bug the fraction test looks at the `.` itself, so the
fractional branch is never taken. -/
def Scanner.number (s : Scanner) : Option (Token × Scanner) :=
  match Scanner.digit_loop (s.source.length + 1) s with
  | none => none
  | some s =>
    match s.peek, s.peek_next with
    | some c, some c2 =>
      if c = '.' && is_digit c2 then
        match s.advance with
        | none => none
        | some (_, s) =>
          match Scanner.digit_loop (s.source.length + 1) s with
          | none => none
          | some s => some (s.make_token TokenType.Number, s)
      else some (s.make_token TokenType.Number, s)
    | _, _ => none

/-- The scanning loop of `Scanner::string`: `while peek() != '"' &&
!is_at_end()`.  `peek` is evaluated first, so an unterminated string
panics before the `is_at_end` test can fire. -/
def Scanner.string_loop : Nat → Scanner → Option Scanner
  | 0, _ => none
  | fuel + 1, s =>
    match s.peek with
    | none => none
    | some c =>
      if c = '"' then some s
      else if s.is_at_end then some s
      else
        let s := if c = Char.ofNat 10 then { s with line := s.line + 1 } else s
        match s.advance with
        | none => none
        | some (_, s') => Scanner.string_loop fuel s'

/-- `Scanner::string`. -/
def Scanner.string (s : Scanner) : Option (Token × Scanner) :=
  match Scanner.string_loop (s.source.length + 1) s with
  | none => none
  | some s =>
    if s.is_at_end then
      let t := s.error_token ("Unterminated String")
      some (t, s)
    else
      match s.advance with
      | none => none
      | some (_, s) => some (s.make_token TokenType.String, s)

/-- The comment-consuming loop of `Scanner::skip_whitespace`:
`while peek() != '\n' && !is_at_end()`.  `peek` is evaluated before the
`is_at_end` test, so a comment that reaches the end of the source without
a newline panics. -/
def Scanner.comment_loop : Nat → Scanner → Option Scanner
  | 0, _ => none
  | fuel + 1, s =>
    match s.peek with
    | none => none
    | some c =>
      if c = Char.ofNat 10 then some s
      else if s.is_at_end then some s
      else
        match s.advance with
        | none => none
        | some (_, s') => Scanner.comment_loop fuel s'

/-- `Scanner::skip_whitespace`.  Although the source wraps the match in
`loop`, every arm returns, so at most one whitespace character is
skipped per call. -/
def Scanner.skip_whitespace (s : Scanner) : Option Scanner :=
  match s.peek with
  | none => none
  | some c =>
    if c = ' ' || c = Char.ofNat 13 || c = Char.ofNat 9 then
      (s.advance).map Prod.snd
    else if c = Char.ofNat 10 then
      (({ s with line := s.line + 1 } : Scanner).advance).map Prod.snd
    else if c = '/' then
      match s.peek_next with
      | none => none
      | some c2 =>
        if c2 = '/' then Scanner.comment_loop (s.source.length + 1) s
        else some s
    else some s

/-- `Scanner::scan_token`.  The `!` `=` `<` `>` arms reproduce the source
bug: the `if`/`else` there ends each branch with a `;`, so the made
token is discarded, the arm evaluates to `()` and control falls through
to the final `error_token("Unexpected character.")` (after
`match_character` has possibly consumed a `=`). -/
def Scanner.scan_token (s : Scanner) : Option (Token × Scanner) :=
  match s.skip_whitespace with
  | none => none
  | some s =>
  let s : Scanner := { s with start := s.current }
  if s.is_at_end then some (s.make_token TokenType.Eof, s)
  else
    match s.advance with
    | none => none
    | some (character, s) =>
      if is_alpha character then s.identifier
      else if is_digit character then s.number
      else
        match character with
        | '(' => some (s.make_token TokenType.LeftParen, s)
        | ')' => some (s.make_token TokenType.RightParen, s)
        | '.' => some (s.make_token TokenType.Dot, s)
        | ',' => some (s.make_token TokenType.Comma, s)
        | ';' => some (s.make_token TokenType.Semicolon, s)
        | '-' => some (s.make_token TokenType.Plus, s)
        | '+' => some (s.make_token TokenType.Minus, s)
        | '/' => some (s.make_token TokenType.Salsh, s)
        | '*' => some (s.make_token TokenType.Star, s)
        | '!' =>
          let s := (s.match_character '=').2
          some (s.error_token ("Unexpected character."), s)
        | '=' =>
          let s := (s.match_character '=').2
          some (s.error_token ("Unexpected character."), s)
        | '<' =>
          let s := (s.match_character '=').2
          some (s.error_token ("Unexpected character."), s)
        | '>' =>
          let s := (s.match_character '=').2
          some (s.error_token ("Unexpected character."), s)
        | '"' => s.string
        | c =>
          if c = Char.ofNat 123 then some (s.make_token TokenType.LeftBrace, s)
          else if c = Char.ofNat 125 then some (s.make_token TokenType.RightBrace, s)
          else some (s.error_token ("Unexpected character."), s)

/-! ### vm.rs -/

/-- `InterpretResult` from vm.rs. -/
inductive InterpretResult where
  | Ok
  | CompileError
  | RuntimeError
deriving DecidableEq, Repr

/-- `STACK_MAX` from vm.rs.  It is only ever used as the initial
capacity reservation of the stack vector (`Vec::with_capacity`). -/
def STACK_MAX : Nat := 256

/-- Lookup in the globals table (`HashMap::get`). -/
def globalsGet : List (ObjRef × Value) → ObjRef → Option Value
  | [], _ => none
  | (k, v) :: rest, r => if k = r then some v else globalsGet rest r

/-- `HashMap::contains_key` on the globals table. -/
def globalsContains (g : List (ObjRef × Value)) (r : ObjRef) : Bool :=
  (globalsGet g r).isSome

/-- `HashMap::insert` on the globals table: replace any existing binding. -/
def globalsInsert (g : List (ObjRef × Value)) (r : ObjRef) (v : Value) :
    List (ObjRef × Value) :=
  (g.filter (fun p => p.1 ≠ r)) ++ [(r, v)]

/-- The state of `Runner` from vm.rs plus the streams it writes: `stack`
is the `Vec<Value>` (top of stack at the END of the list, matching
`Vec::push`/`pop`), `ip` is the number of code bytes already consumed by
the `slice::Iter` cursor, `output`/`errors` collect the lines printed to
stdout/stderr.  `DEBUG_TRACE_EXECUTION` tracing writes to stdout in the
source, but spec §1/§4.2 place the debug trace outside the contract, so
trace lines are not modelled in `output`. -/
structure RState where
  stack : List Value
  allocator : ObjAllocator
  chunk : Chunk
  ip : Nat
  globals : List (ObjRef × Value)
  output : List String
  errors : List String
deriving DecidableEq, Repr

/-- `Runner::read_byte`: `ip.next()` with `unwrap_unchecked` — running
off the end of the code is UB in the source, modelled as `none`. -/
def RState.read_byte (r : RState) : Option (Nat × RState) :=
  (r.chunk.code.get? r.ip).map (fun b => (b, { r with ip := r.ip + 1 }))

/-- `Runner::read_constant`: read an operand byte and index the constant
pool with it (a bad index panics, hence `none`). -/
def RState.read_constant (r : RState) : Option (Value × RState) := do
  let (b, r) ← r.read_byte
  let v ← r.chunk.constants.get? b
  some (v, r)

/-- `Runner::read_string`: the constant must be a `String` handle;
anything else panics ("Constant is not String!"). -/
def RState.read_string (r : RState) : Option (ObjRef × RState) := do
  let (v, r) ← r.read_constant
  match v with
  | Value.string reference => some (reference, r)
  | _ => none

/-- `Runner::push`: `self.stack.push(value)` — no capacity check. -/
def RState.push (r : RState) (value : Value) : RState :=
  { r with stack := r.stack ++ [value] }

/-- `Runner::pop`: `self.stack.pop().expect("Empty stack")`. -/
def RState.pop (r : RState) : Option (Value × RState) :=
  match r.stack.getLast? with
  | none => none
  | some v => some (v, { r with stack := r.stack.dropLast })

/-- `Runner::peek`: `stack[len - 1 - distance]`; underflow or an
out-of-range index panics (`none`). -/
def RState.peek (r : RState) (distance : Nat) : Option Value :=
  if distance + 1 ≤ r.stack.length then r.stack.get? (r.stack.length - 1 - distance)
  else none

/-- `Runner::runtime_error`: print the message and a `[line L] in
script` line to stderr (L is the line of the byte just consumed), clear
the stack and yield `RuntimeError`.  An out-of-range line lookup panics
(`none`). -/
def runtime_error (r : RState) (message : String) :
    Option (RState × Option InterpretResult) := do
  let line ← r.chunk.lines.get? (r.ip - 1)
  some ({ r with
            errors := r.errors ++ [message, "[line " ++ toString line ++ "] in script"],
            stack := [] },
        some InterpretResult.RuntimeError)

/-- The `binary_op!` macro from vm.rs: pop `b` then `a`; if both are
numbers push `result a b`, otherwise push `a` and `b` back (restoring
the stack) and raise "Operands must be numbers.".  `result` stands for
the macro's `$result_type(a $op b)`. -/
def RState.binary_op (r : RState) (result : F64 → F64 → Value) :
    Option (RState × Option InterpretResult) := do
  let (b, r) ← r.pop
  let (a, r) ← r.pop
  match a, b with
  | Value.number x, Value.number y => some (r.push (result x y), none)
  | _, _ =>
    let r := (r.push a).push b
    runtime_error r ("Operands must be numbers.")

/-- The message the `GetGlobal`/`SetGlobal` arms pass to
`runtime_error`.  In the source it is the plain `&str` literal
`"Undefined variable '{name}'."`; `runtime_error` prints its argument
verbatim (`eprintln!("{message}")`), so the braces are never
interpolated — the bound `name` variable is unused. -/
def undefined_variable_message : String :=
  "Undefined variable " ++ squote ++ "{name}" ++ squote ++ "."

/-- One iteration of the `Runner::run` dispatch loop: read a byte,
decode it (an invalid opcode byte is `unwrap_unchecked` UB, hence
`none`), execute the arm.  Returns the successor state and `some result`
when the arm halts the loop, `none` result to continue. -/
def RState.step (r : RState) : Option (RState × Option InterpretResult) := do
  let (instruction, r) ← r.read_byte
  let op ← Op.ofByte instruction
  match op with
  | Op.Constant => do
    let (constant, r) ← r.read_constant
    some (r.push constant, none)
  | Op.Nil => some (r.push Value.nil, none)
  | Op.True => some (r.push (Value.bool true), none)
  | Op.False => some (r.push (Value.bool false), none)
  | Op.Pop => do
    let (_, r) ← r.pop
    some (r, none)
  | Op.GetGlobal => do
    let (reference, r) ← r.read_string
    match globalsGet r.globals reference with
    | some value => some (r.push value, none)
    | none => do
      let _name ← r.allocator.deref reference
      runtime_error r undefined_variable_message
  | Op.DefineGlobal => do
    let (reference, r) ← r.read_string
    let (value, r) ← r.pop
    some ({ r with globals := globalsInsert r.globals reference value }, none)
  | Op.SetGlobal => do
    let (reference, r) ← r.read_string
    -- source bug kept: the branches are inverted — the error fires when
    -- the variable IS defined, and an undefined name is silently defined
    if globalsContains r.globals reference then do
      let _name ← r.allocator.deref reference
      runtime_error r undefined_variable_message
    else do
      let value ← r.peek 0
      some ({ r with globals := globalsInsert r.globals reference value }, none)
  | Op.Equal => do
    let (a, r) ← r.pop
    let (b, r) ← r.pop
    some (r.push (Value.bool (Value.eqb a b)), none)
  | Op.Greater => r.binary_op (fun a b => Value.bool (F64.gt a b))
  | Op.Less => r.binary_op (fun a b => Value.bool (F64.lt a b))
  | Op.Add => do
    let b ← r.peek 0
    let a ← r.peek 1
    match a, b with
    | Value.number x, Value.number y =>
      let value := F64.add x y
      do
        let (_, r) ← r.pop
        let (_, r) ← r.pop
        some (r.push (Value.number value), none)
    | Value.string ra, Value.string rb => do
      let sa ← r.allocator.deref ra
      let sb ← r.allocator.deref rb
      let value := sa ++ sb
      let (_, r) ← r.pop
      let (_, r) ← r.pop
      let p := r.allocator.intern value
      some (({ r with allocator := p.2 } : RState).push (Value.string p.1), none)
    | _, _ => runtime_error r ("Operands must be numbers.")
  | Op.Subtract => r.binary_op (fun a b => Value.number (F64.sub a b))
  | Op.Multiply => r.binary_op (fun a b => Value.number (F64.mul a b))
  | Op.Divide => r.binary_op (fun a b => Value.number (F64.div a b))
  | Op.Not => do
    let (value, r) ← r.pop
    some (r.push (Value.bool value.is_falsy), none)
  | Op.Print => do
    let (value, r) ← r.pop
    match value with
    | Value.string reference => do
      let s ← r.allocator.deref reference
      some ({ r with output := r.output ++ [s] }, none)
    | _ => some ({ r with output := r.output ++ [value.print] }, none)
  | Op.Negate => do
    let v ← r.peek 0
    match v with
    | Value.number value => do
      let (_, r) ← r.pop
      some (r.push (Value.number (F64.neg value)), none)
    | _ => runtime_error r ("Operand must be a number")
  | Op.Return => some (r, some InterpretResult.Ok)

/-- The `Runner::run` loop, by fuel (each iteration consumes at least
one code byte, so `code.length + 1` fuel is always enough). -/
def RState.run : Nat → RState → Option (RState × InterpretResult)
  | 0, _ => none
  | fuel + 1, r =>
    match r.step with
    | none => none
    | some (r', some result) => some (r', result)
    | some (r', none) => RState.run fuel r'

/-! ### compiler.rs

The compiler source belongs to the statements-and-globals variant: it
refers to `TokenType::Slash` (the scanner names it `Salsh`) and reads a
`lexeme` field off tokens (the scanner's tokens carry `start`/`length`
spans; `Token.lexeme` recovers the slice).  Both glue points are per
spec §9, which identifies these as the same token type / same data. -/

/-- `Precedence` from compiler.rs. -/
inductive Precedence where
  | None
  | Assignment
  | Or
  | And
  | Equality
  | Comparison
  | Term
  | Factor
  | Unary
  | Call
  | Primary
deriving DecidableEq, Repr

/-- `Precedence as usize`: the discriminant. -/
def Precedence.toNat : Precedence → Nat
  | .None => 0
  | .Assignment => 1
  | .Or => 2
  | .And => 3
  | .Equality => 4
  | .Comparison => 5
  | .Term => 6
  | .Factor => 7
  | .Unary => 8
  | .Call => 9
  | .Primary => 10

/-- `TryFrom<usize> for Precedence`. -/
def Precedence.try_from : Nat → Option Precedence
  | 0 => some .None
  | 1 => some .Assignment
  | 2 => some .Or
  | 3 => some .And
  | 4 => some .Equality
  | 5 => some .Comparison
  | 6 => some .Term
  | 7 => some .Factor
  | 8 => some .Unary
  | 9 => some .Call
  | 10 => some .Primary
  | _ => none

/-- `Parser` from compiler.rs, plus `err_log`, the list of lines its
error reporting writes to stderr. -/
structure Parser where
  scanner : Scanner
  current : Token
  previous : Option Token
  had_error : Bool
  panic_mode : Bool
  err_log : List String
deriving DecidableEq, Repr

/-- `Parser::new`: prime `current` with the first token. -/
def Parser.new (scanner : Scanner) : Option Parser :=
  (scanner.scan_token).map (fun p =>
    { scanner := p.2, current := p.1, previous := none,
      had_error := false, panic_mode := false, err_log := [] })

/-- `Parser::error_at`: report unless already panicking; set
`panic_mode` and `had_error`; the reported line is
`[line L] Error( at end | at 'lexeme' | ): message`. -/
def Parser.error_at (p : Parser) (token : Token) (message : String) : Parser :=
  if p.panic_mode then p
  else
    let place :=
      match token.token_type with
      | TokenType.Eof => " at end"
      | TokenType.Error _ => ""
      | _ => " at " ++ squote ++ String.mk (token.lexeme p.scanner.source) ++ squote
    { p with
        panic_mode := true
        had_error := true
        err_log := p.err_log ++
          ["[line " ++ toString token.line ++ "] Error" ++ place ++ ": " ++ message] }

/-- `Parser::error_at_current`. -/
def Parser.error_at_current (p : Parser) (message : String) : Parser :=
  p.error_at p.current message

/-- `Parser::error`: report at `previous` (unwrap — `none` if absent). -/
def Parser.error (p : Parser) (message : String) : Option Parser :=
  match p.previous with
  | none => none
  | some t => some (p.error_at t message)

/-- The scan loop of `Parser::advance`: read tokens, reporting each
`Error` token (whose payload is the message the compiler variant keeps
in the token's lexeme), until a non-error token arrives. -/
def Parser.advance_loop : Nat → Parser → Option Parser
  | 0, _ => none
  | fuel + 1, p =>
    match p.scanner.scan_token with
    | none => none
    | some (t, sc) =>
      let p : Parser := { p with scanner := sc, current := t }
      match t.token_type with
      | TokenType.Error message => Parser.advance_loop fuel (p.error_at_current message)
      | _ => some p

/-- `Parser::advance`: slide `previous ← current`, then scan. -/
def Parser.advance (p : Parser) (fuel : Nat) : Option Parser :=
  Parser.advance_loop fuel { p with previous := some p.current }

/-- `Parser::consume`. -/
def Parser.consume (p : Parser) (fuel : Nat) (token_type : TokenType) (message : String) :
    Option Parser :=
  if p.current.token_type = token_type then p.advance fuel
  else some (p.error_at_current message)

/-- The prefix parse functions that occur in `make_rules`
(defunctionalised: each constructor names the compiler method the rule
table stores a pointer to).  `varName` is the `variable` rule. -/
inductive PrefixKind where
  | grouping
  | unary
  | literal
  | number
  | stringLit
  | varName
deriving DecidableEq, Repr

/-- `ParseRule` from compiler.rs.  Field names: `pre` is the source's
`prefix` rule, `mid` its `infix` rule (every infix entry in `make_rules`
is the `binary` method, so a Bool suffices), `precedence` as in the
source.  (`prefix`/`infix` cannot be used as identifiers here.) -/
structure ParseRule where
  pre : Option PrefixKind
  mid : Bool
  precedence : Precedence
deriving DecidableEq, Repr

/-- `make_rules` from compiler.rs as a lookup by token kind: the source
builds a `Vec` sorted by discriminant and indexes it with
`token_type as usize`, which is exactly this function.  Entries not
listed in `make_rules` with non-default fields map to the default rule
(no prefix, no infix, `Precedence::None`). -/
def get_rule : TokenType → ParseRule
  | TokenType.LeftParen => ⟨some PrefixKind.grouping, false, Precedence.None⟩
  | TokenType.Plus => ⟨none, true, Precedence.Term⟩
  | TokenType.Minus => ⟨some PrefixKind.unary, true, Precedence.Term⟩
  | TokenType.Salsh => ⟨none, true, Precedence.Factor⟩
  | TokenType.Star => ⟨none, true, Precedence.Factor⟩
  | TokenType.Bang => ⟨some PrefixKind.unary, false, Precedence.None⟩
  | TokenType.BangEqual => ⟨none, true, Precedence.Equality⟩
  | TokenType.EqualEqual => ⟨none, true, Precedence.Equality⟩
  | TokenType.Greater => ⟨none, true, Precedence.Comparison⟩
  | TokenType.GreaterEqual => ⟨none, true, Precedence.Comparison⟩
  | TokenType.Less => ⟨none, true, Precedence.Comparison⟩
  | TokenType.LessEqual => ⟨none, true, Precedence.Comparison⟩
  | TokenType.True => ⟨some PrefixKind.literal, false, Precedence.None⟩
  | TokenType.False => ⟨some PrefixKind.literal, false, Precedence.None⟩
  | TokenType.Nil => ⟨some PrefixKind.literal, false, Precedence.None⟩
  | TokenType.Number => ⟨some PrefixKind.number, false, Precedence.None⟩
  | TokenType.String => ⟨some PrefixKind.stringLit, false, Precedence.None⟩
  | TokenType.Identifier => ⟨some PrefixKind.varName, false, Precedence.None⟩
  | _ => ⟨none, false, Precedence.None⟩

/-- `Compiler` from compiler.rs (the `rules` vector is the `get_rule`
function above). -/
structure Compiler where
  parser : Parser
  allocator : ObjAllocator
  current_chunk : Chunk
deriving DecidableEq, Repr

/-- `Compiler::check_token`. -/
def Compiler.check_token (c : Compiler) (token_type : TokenType) : Bool :=
  c.parser.current.token_type == token_type

/-- `Compiler::match_token`. -/
def Compiler.match_token (fuel : Nat) (c : Compiler) (token_type : TokenType) :
    Option (Bool × Compiler) :=
  if c.check_token token_type then do
    let p ← c.parser.advance fuel
    some (true, { c with parser := p })
  else some (false, c)

/-- `Compiler::emit_byte`: write to the chunk at the previous token's
line (unwrap of `previous`). -/
def Compiler.emit_byte (c : Compiler) (byte : Nat) : Option Compiler :=
  match c.parser.previous with
  | none => none
  | some prev => some { c with current_chunk := c.current_chunk.write byte prev.line }

/-- `Compiler::emit_bytes`. -/
def Compiler.emit_bytes (c : Compiler) (byte0 byte1 : Nat) : Option Compiler := do
  let c ← c.emit_byte byte0
  c.emit_byte byte1

/-- `Compiler::emit_op`. -/
def Compiler.emit_op (c : Compiler) (op : Op) : Option Compiler :=
  c.emit_byte op.toByte

/-- `Compiler::make_constant`: add to the pool; an index above 255
reports "Too many constants in one chunk." and substitutes 0. -/
def Compiler.make_constant (c : Compiler) (value : Value) : Option (Nat × Compiler) :=
  let p := c.current_chunk.add_constant value
  let c : Compiler := { c with current_chunk := p.2 }
  if p.1 > 255 then do
    let pr ← c.parser.error ("Too many constants in one chunk.")
    some (0, { c with parser := pr })
  else some (p.1, c)

/-- `Compiler::emit_constant`. -/
def Compiler.emit_constant (c : Compiler) (value : Value) : Option Compiler := do
  let (constant, c) ← c.make_constant value
  c.emit_bytes Op.Constant.toByte constant

/-- `Compiler::identifier_constant`: intern the token's lexeme, store
the resulting String handle in the constant pool. -/
def Compiler.identifier_constant (c : Compiler) (name : Token) : Option (Nat × Compiler) :=
  let p := c.allocator.intern (String.mk (name.lexeme c.parser.scanner.source))
  Compiler.make_constant { c with allocator := p.2 } (Value.string p.1)

/-- `Compiler::define_variable`. -/
def Compiler.define_variable (c : Compiler) (global : Nat) : Option Compiler := do
  let c ← c.emit_op Op.DefineGlobal
  c.emit_byte global

/-- `Compiler::literal`. -/
def Compiler.literal (c : Compiler) (_can_assign : Bool) : Option Compiler :=
  match c.parser.previous with
  | none => none
  | some prev =>
    match prev.token_type with
    | TokenType.False => c.emit_op Op.False
    | TokenType.Nil => c.emit_op Op.Nil
    | TokenType.True => c.emit_op Op.True
    | _ => some c

def digits_value (l : List Char) : Nat :=
  l.foldl (fun acc c => acc * 10 + (c.toNat - 48)) 0

/-- `lexeme.parse::<f64>().unwrap()` on the digit-shaped lexemes the
scanner produces (digits with an optional fraction); the value is
computed exactly, as a rational. -/
def parse_double (lexeme : List Char) : Option F64 :=
  let intPart := lexeme.takeWhile is_digit
  let rest := lexeme.drop intPart.length
  if intPart = [] then none
  else
    match rest with
    | [] => some (F64.ofInt (digits_value intPart))
    | '.' :: frac =>
      if frac ≠ [] ∧ frac.all is_digit then
        some ⟨(digits_value intPart) * ((10 : Int) ^ frac.length) + digits_value frac,
              (10 : Int) ^ frac.length⟩
      else none
    | _ => none

/-- `Compiler::number`. -/
def Compiler.number (c : Compiler) (_can_assign : Bool) : Option Compiler :=
  match c.parser.previous with
  | none => none
  | some prev =>
    match parse_double (prev.lexeme c.parser.scanner.source) with
    | none => none
    | some value => c.emit_constant (Value.number value)

/-- `Compiler::string`: strip the surrounding quotes
(`&lexeme[1..len-1]`), intern, emit the constant. -/
def Compiler.string_rule (c : Compiler) (_can_assign : Bool) : Option Compiler :=
  match c.parser.previous with
  | none => none
  | some prev =>
    let lexeme := prev.lexeme c.parser.scanner.source
    let value := (lexeme.drop 1).take (lexeme.length - 2)
    let p := c.allocator.intern (String.mk value)
    Compiler.emit_constant { c with allocator := p.2 } (Value.string p.1)

/-- The loop of `Compiler::synchronize`. -/
def Compiler.sync_loop : Nat → Compiler → Option Compiler
  | 0, _ => none
  | fuel + 1, c =>
    if c.parser.current.token_type = TokenType.Eof then some c
    else
      match c.parser.previous with
      | none => none
      | some prev =>
        if prev.token_type = TokenType.Semicolon then some c
        else
          match c.parser.current.token_type with
          | TokenType.Class | TokenType.Fun | TokenType.Var | TokenType.For
          | TokenType.If | TokenType.While | TokenType.Print | TokenType.Return => some c
          | _ => do
            let p ← c.parser.advance fuel
            Compiler.sync_loop fuel { c with parser := p }

/-- `Compiler::synchronize`: clear `panic_mode`, skip to a statement
boundary. -/
def Compiler.synchronize (fuel : Nat) (c : Compiler) : Option Compiler :=
  Compiler.sync_loop fuel { c with parser := { c.parser with panic_mode := false } }

/-- `Compiler::parse_variable`. -/
def Compiler.parse_variable (fuel : Nat) (c : Compiler) (error_message : String) :
    Option (Nat × Compiler) := do
  let p ← c.parser.consume fuel TokenType.Identifier error_message
  let c : Compiler := { c with parser := p }
  match c.parser.previous with
  | none => none
  | some prev => c.identifier_constant prev

/-- The heads of the mutually recursive `Compiler` parsing methods.
Lean's mutual well-founded recursion does not evaluate definitionally,
so the mutually recursive methods are combined into the single fuelled
dispatcher `Compiler.go` below; each constructor here is one source
method together with its non-`self` arguments, and the named wrappers
after `Compiler.go` restore the source API.  Every call of one method by
another spends one unit of fuel, exactly as a direct mutual definition
would. -/
inductive Call where
  | parse_precedence (precedence : Precedence)
  | run_prefix (k : PrefixKind) (can_assign : Bool)
  | infix_loop (precedence : Precedence) (can_assign : Bool)
  | expression
  | grouping (can_assign : Bool)
  | unary (can_assign : Bool)
  | binary (can_assign : Bool)
  | named_variable (name : Token) (can_assign : Bool)
  | variable_rule (can_assign : Bool)
  | print_statement
  | expression_statement
  | statement
  | var_declaration
  | declaration
  | compile_loop
deriving Repr

/-- The bodies of the mutually recursive `Compiler` methods (see
`Call`).  Each `match` arm below is the body of the correspondingly
named source method, verbatim up to the `Compiler.go fuel (Call....)`
spelling of a recursive call. -/
def Compiler.go : Nat → Call → Compiler → Option Compiler
  | 0, _, _ => none
  | fuel + 1, call, c =>
    match call with
    | Call.parse_precedence precedence => do
      -- `Compiler::parse_precedence`: advance, run the previous token's
      -- prefix rule ("Expect expression." when there is none), fold infix
      -- rules while the current token binds at least as tightly, then
      -- flag a stray `=` as "Invalid assignment target."
      let p ← c.parser.advance fuel
      let c : Compiler := { c with parser := p }
      match c.parser.previous with
      | none => none
      | some prev =>
        let rule := get_rule prev.token_type
        let can_assign : Bool := decide (precedence.toNat ≤ Precedence.Assignment.toNat)
        match rule.pre with
        | none => do
          let p ← c.parser.error ("Expect expression.")
          some { c with parser := p }
        | some k => do
          let c ← Compiler.go fuel (Call.run_prefix k can_assign) c
          let c ← Compiler.go fuel (Call.infix_loop precedence can_assign) c
          if can_assign then do
            let (matched, c) ← Compiler.match_token fuel c TokenType.Equal
            if matched then do
              let p ← c.parser.error ("Invalid assignment target.")
              some { c with parser := p }
            else some c
          else some c
    | Call.run_prefix k can_assign =>
      -- dispatch a stored prefix-rule pointer (the closures in `make_rules`)
      match k with
      | PrefixKind.grouping => Compiler.go fuel (Call.grouping can_assign) c
      | PrefixKind.unary => Compiler.go fuel (Call.unary can_assign) c
      | PrefixKind.literal => c.literal can_assign
      | PrefixKind.number => c.number can_assign
      | PrefixKind.stringLit => c.string_rule can_assign
      | PrefixKind.varName => Compiler.go fuel (Call.variable_rule can_assign) c
    | Call.infix_loop precedence can_assign =>
      -- the infix loop of `parse_precedence`: while the current token's
      -- rule binds at least as tightly, unwrap its infix rule (a missing
      -- one panics), advance and apply it
      let rule := get_rule c.parser.current.token_type
      if precedence.toNat > rule.precedence.toNat then some c
      else if rule.mid then do
        let p ← c.parser.advance fuel
        let c ← Compiler.go fuel (Call.binary can_assign) { c with parser := p }
        Compiler.go fuel (Call.infix_loop precedence can_assign) c
      else none
    | Call.expression =>
      -- `Compiler::expression`
      Compiler.go fuel (Call.parse_precedence Precedence.Assignment) c
    | Call.grouping _can_assign => do
      -- `Compiler::grouping`
      let c ← Compiler.go fuel Call.expression c
      let p ← c.parser.consume fuel TokenType.RightParen
        ("Expect " ++ squote ++ ")" ++ squote ++ " after expression.")
      some { c with parser := p }
    | Call.unary _can_assign => do
      -- `Compiler::unary`: parse the operand at `Unary` precedence, then
      -- emit `Not` for `!` and `Negate` for the `Minus` token
      match c.parser.previous with
      | none => none
      | some prev =>
        let operator_type := prev.token_type
        let c ← Compiler.go fuel (Call.parse_precedence Precedence.Unary) c
        match operator_type with
        | TokenType.Bang => c.emit_op Op.Not
        | TokenType.Minus => c.emit_op Op.Negate
        | _ => some c
    | Call.binary _can_assign => do
      -- `Compiler::binary`: parse the right operand one precedence level
      -- tighter (left-associativity), then emit the operator's opcode(s)
      match c.parser.previous with
      | none => none
      | some prev =>
        let operator_type := prev.token_type
        let rule := get_rule operator_type
        match Precedence.try_from (rule.precedence.toNat + 1) with
        | none => none
        | some next_precedence => do
          let c ← Compiler.go fuel (Call.parse_precedence next_precedence) c
          match operator_type with
          | TokenType.BangEqual => do
            let c ← c.emit_op Op.Equal
            c.emit_op Op.Not
          | TokenType.EqualEqual => c.emit_op Op.Equal
          | TokenType.Greater => c.emit_op Op.Greater
          | TokenType.GreaterEqual => do
            let c ← c.emit_op Op.Less
            c.emit_op Op.Not
          | TokenType.Less => c.emit_op Op.Less
          | TokenType.LessEqual => do
            let c ← c.emit_op Op.Greater
            c.emit_op Op.Not
          | TokenType.Plus => c.emit_op Op.Add
          | TokenType.Minus => c.emit_op Op.Subtract
          | TokenType.Star => c.emit_op Op.Multiply
          | TokenType.Salsh => c.emit_op Op.Divide
          | _ => some c
    | Call.named_variable name can_assign => do
      -- `Compiler::named_variable`: intern the name; with `can_assign`
      -- and a following `=`, compile the right-hand side and emit
      -- `SetGlobal`, otherwise emit `GetGlobal`
      let (arg, c) ← c.identifier_constant name
      if can_assign then do
        let (matched, c) ← Compiler.match_token fuel c TokenType.Equal
        if matched then do
          let c ← Compiler.go fuel Call.expression c
          let c ← c.emit_op Op.SetGlobal
          c.emit_byte arg
        else do
          let c ← c.emit_op Op.GetGlobal
          c.emit_byte arg
      else do
        let c ← c.emit_op Op.GetGlobal
        c.emit_byte arg
    | Call.variable_rule can_assign =>
      -- `Compiler::variable`
      match c.parser.previous with
      | none => none
      | some prev => Compiler.go fuel (Call.named_variable prev can_assign) c
    | Call.print_statement => do
      -- `Compiler::print_statement`
      let c ← Compiler.go fuel Call.expression c
      let p ← c.parser.consume fuel TokenType.Semicolon
        ("Expect " ++ squote ++ ";" ++ squote ++ " after value.")
      Compiler.emit_op { c with parser := p } Op.Print
    | Call.expression_statement => do
      -- `Compiler::expression_statement`
      let c ← Compiler.go fuel Call.expression c
      let p ← c.parser.consume fuel TokenType.Semicolon
        ("Expect " ++ squote ++ ";" ++ squote ++ " after expression.")
      Compiler.emit_op { c with parser := p } Op.Pop
    | Call.statement => do
      -- `Compiler::statement`
      let (matched, c) ← Compiler.match_token fuel c TokenType.Print
      if matched then Compiler.go fuel Call.print_statement c
      else Compiler.go fuel Call.expression_statement c
    | Call.var_declaration => do
      -- `Compiler::var_declaration`
      let (global, c) ← Compiler.parse_variable fuel c ("Expect variable name.")
      let (matched, c) ← Compiler.match_token fuel c TokenType.Equal
      let c ←
        if matched then Compiler.go fuel Call.expression c
        else c.emit_op Op.Nil
      let p ← c.parser.consume fuel TokenType.Semicolon
        ("Expect " ++ squote ++ ";" ++ squote ++ " after variable declaration.")
      Compiler.define_variable { c with parser := p } global
    | Call.declaration => do
      -- `Compiler::declaration`
      let (matched, c) ← Compiler.match_token fuel c TokenType.Var
      let c ←
        if matched then Compiler.go fuel Call.var_declaration c
        else Compiler.go fuel Call.statement c
      if c.parser.panic_mode then Compiler.synchronize fuel c
      else some c
    | Call.compile_loop => do
      -- the `while !match_token(Eof)` loop of `Compiler::compile`
      let (matched, c) ← Compiler.match_token fuel c TokenType.Eof
      if matched then some c
      else do
        let c ← Compiler.go fuel Call.declaration c
        Compiler.go fuel Call.compile_loop c

/-- `Compiler::parse_precedence` (see `Compiler.go`). -/
def Compiler.parse_precedence (fuel : Nat) (c : Compiler) (precedence : Precedence) :
    Option Compiler :=
  Compiler.go fuel (Call.parse_precedence precedence) c

/-- `Compiler::expression` (see `Compiler.go`). -/
def Compiler.expression (fuel : Nat) (c : Compiler) : Option Compiler :=
  Compiler.go fuel Call.expression c

/-- `Compiler::grouping` (see `Compiler.go`). -/
def Compiler.grouping (fuel : Nat) (c : Compiler) (can_assign : Bool) : Option Compiler :=
  Compiler.go fuel (Call.grouping can_assign) c

/-- `Compiler::unary` (see `Compiler.go`). -/
def Compiler.unary (fuel : Nat) (c : Compiler) (can_assign : Bool) : Option Compiler :=
  Compiler.go fuel (Call.unary can_assign) c

/-- `Compiler::binary` (see `Compiler.go`). -/
def Compiler.binary (fuel : Nat) (c : Compiler) (can_assign : Bool) : Option Compiler :=
  Compiler.go fuel (Call.binary can_assign) c

/-- `Compiler::named_variable` (see `Compiler.go`). -/
def Compiler.named_variable (fuel : Nat) (c : Compiler) (name : Token) (can_assign : Bool) :
    Option Compiler :=
  Compiler.go fuel (Call.named_variable name can_assign) c

/-- `Compiler::variable` (see `Compiler.go`). -/
def Compiler.variable_rule (fuel : Nat) (c : Compiler) (can_assign : Bool) : Option Compiler :=
  Compiler.go fuel (Call.variable_rule can_assign) c

/-- `Compiler::print_statement` (see `Compiler.go`). -/
def Compiler.print_statement (fuel : Nat) (c : Compiler) : Option Compiler :=
  Compiler.go fuel Call.print_statement c

/-- `Compiler::expression_statement` (see `Compiler.go`). -/
def Compiler.expression_statement (fuel : Nat) (c : Compiler) : Option Compiler :=
  Compiler.go fuel Call.expression_statement c

/-- `Compiler::statement` (see `Compiler.go`). -/
def Compiler.statement (fuel : Nat) (c : Compiler) : Option Compiler :=
  Compiler.go fuel Call.statement c

/-- `Compiler::var_declaration` (see `Compiler.go`). -/
def Compiler.var_declaration (fuel : Nat) (c : Compiler) : Option Compiler :=
  Compiler.go fuel Call.var_declaration c

/-- `Compiler::declaration` (see `Compiler.go`). -/
def Compiler.declaration (fuel : Nat) (c : Compiler) : Option Compiler :=
  Compiler.go fuel Call.declaration c

/-- The `while !match_token(Eof)` loop of `Compiler::compile` (see
`Compiler.go`). -/
def Compiler.compile_loop (fuel : Nat) (c : Compiler) : Option Compiler :=
  Compiler.go fuel Call.compile_loop c

/-- `Compiler::end_compiler`: emit the final `Return`.  (The
`DEBUG_PRINT_CODE` disassembly dump writes only the debug trace, which
spec §4.2 leaves uncontracted; it is not modelled.) -/
def Compiler.end_compiler (c : Compiler) : Option Compiler :=
  c.emit_op Op.Return

/-- `Compiler::compile`: run the declaration loop, emit the final
`Return`, succeed iff no error was recorded. -/
def Compiler.compile (fuel : Nat) (c : Compiler) : Option (Bool × Compiler) := do
  let c ← Compiler.compile_loop fuel c
  let c ← c.end_compiler
  some (!c.parser.had_error, c)

/-- `Compiler::new`. -/
def Compiler.new (source : List Char) (allocator : ObjAllocator) (chunk : Chunk) :
    Option Compiler :=
  (Parser.new (Scanner.new source)).map (fun p =>
    { parser := p, allocator := allocator, current_chunk := chunk })

/-- `VM::interpret` from vm.rs: compile the source into a fresh chunk
(sharing the VM's allocator), return `CompileError` on failure, else run
the chunk.  The result carries the lines printed to stdout and stderr. -/
def interpret (fuel : Nat) (source : String) :
    Option (InterpretResult × List String × List String) := do
  let c ← Compiler.new source.toList ObjAllocator.new Chunk.new
  let (success, c) ← Compiler.compile fuel c
  if !success then some (InterpretResult.CompileError, [], c.parser.err_log)
  else do
    let r0 : RState :=
      { stack := [], allocator := c.allocator, chunk := c.current_chunk, ip := 0,
        globals := [], output := [], errors := [] }
    let (r, result) ← RState.run fuel r0
    some (result, r.output, c.parser.err_log ++ r.errors)

/-! ### Predicates and concrete states used by the claim statements -/

/-- Whether a value is a `Number`. -/
def Value.is_number : Value → Bool
  | .number _ => true
  | _ => false

/-- Whether a value is a `String`. -/
def Value.is_string : Value → Bool
  | .string _ => true
  | _ => false

/-- Whether two values are of the same variant of the `Value` union. -/
def Value.same_variant : Value → Value → Bool
  | .nil, .nil => true
  | .bool _, .bool _ => true
  | .number _, .number _ => true
  | .string _, .string _ => true
  | _, _ => false

/-- A stack whose top two values fail the both-numbers check of
`binary_op!`. -/
def bin_fail (s : List Value) : Prop :=
  ∃ init x y, s = init ++ [x, y] ∧ (x.is_number && y.is_number) = false

/-- "The operand type check fails": for the `binary_op!` opcodes the top
two stack values are not both numbers, for `Add` additionally not both
strings, for `Negate` the top value is not a number.  `False` for every
opcode without an operand type check. -/
def op_type_check_fails : Op → List Value → Prop
  | Op.Greater, s => bin_fail s
  | Op.Less, s => bin_fail s
  | Op.Subtract, s => bin_fail s
  | Op.Multiply, s => bin_fail s
  | Op.Divide, s => bin_fail s
  | Op.Add, s => ∃ init x y, s = init ++ [x, y] ∧
      (x.is_number && y.is_number) = false ∧ (x.is_string && y.is_string) = false
  | Op.Negate, s => ∃ init x, s = init ++ [x] ∧ x.is_number = false
  | _, _ => False

/-- The VM state produced for the program `a = 3;`: the chunk holds
`SetGlobal 0` (name constant `"a"`, interned to handle 1 with `"a"`
stored in the heap) followed by `Return`; the initializer value 3 is on
the stack and no global is defined. -/
def c1_absent_state : RState :=
  { stack := [Value.number (F64.ofInt 3)]
    allocator := ⟨["a"], [("a", ⟨1⟩)]⟩
    chunk := ⟨[Op.SetGlobal.toByte, 0, Op.Return.toByte], [Value.string ⟨1⟩], [1, 1, 1]⟩
    ip := 0
    globals := []
    output := []
    errors := [] }

/-- The same `SetGlobal` about to execute while the global IS defined
(`a ↦ nil`); a second heap object is present so that the handle with the
off-by-one index (see `ObjAllocator.alloc`) still dereferences. -/
def c1_present_state : RState :=
  { c1_absent_state with
    allocator := ⟨["a", "pad"], [("a", ⟨1⟩), ("pad", ⟨2⟩)]⟩
    globals := [(⟨1⟩, Value.nil)] }

/-- A VM state about to execute `GetGlobal 0` for the name `"a"` with no
global defined (as compiled from `print a;` with no prior `var a`). -/
def c7_state : RState :=
  { stack := []
    allocator := ⟨["a", "pad"], [("a", ⟨1⟩), ("pad", ⟨2⟩)]⟩
    chunk := ⟨[Op.GetGlobal.toByte, 0], [Value.string ⟨1⟩], [1, 1]⟩
    ip := 0
    globals := []
    output := []
    errors := [] }

/-- A VM state about to execute `Add` with two `Nil` operands. -/
def c4_counter_state : RState :=
  { stack := [Value.nil, Value.nil]
    allocator := ObjAllocator.new
    chunk := ⟨[Op.Add.toByte], [], [1]⟩
    ip := 0
    globals := []
    output := []
    errors := [] }

/-- A VM state about to execute `Add` with operands 1 and 2. -/
def c4_wstate : RState :=
  { stack := [Value.number (F64.ofInt 1), Value.number (F64.ofInt 2)]
    allocator := ObjAllocator.new
    chunk := ⟨[Op.Add.toByte], [], [1]⟩
    ip := 0
    globals := []
    output := []
    errors := [] }

/-- A VM state about to execute `Negate` with a `Bool` operand. -/
def c8_wstate : RState :=
  { stack := [Value.bool true]
    allocator := ObjAllocator.new
    chunk := ⟨[Op.Negate.toByte], [], [1]⟩
    ip := 0
    globals := []
    output := []
    errors := [] }

/-- A VM state with exactly 256 (= `STACK_MAX`) live stack entries,
about to execute `True` (which pushes). -/
def c9_counter_state : RState :=
  { stack := List.replicate 256 Value.nil
    allocator := ObjAllocator.new
    chunk := ⟨[Op.True.toByte], [], [1]⟩
    ip := 0
    globals := []
    output := []
    errors := [] }

/-- A VM state about to execute `Equal` on a `Number` under a `Nil`. -/
def c10_wstate : RState :=
  { stack := [Value.number (F64.ofInt 1), Value.nil]
    allocator := ObjAllocator.new
    chunk := ⟨[Op.Equal.toByte], [], [1]⟩
    ip := 0
    globals := []
    output := []
    errors := [] }

/-! ### Helper lemmas about the VM stack primitives -/

theorem pop_concat (r : RState) (init : List Value) (v : Value)
    (h : r.stack = init ++ [v]) :
    r.pop = some (v, { r with stack := init }) := by
  unfold RState.pop
  rw [h]
  simp [List.getLast?_concat, List.dropLast_concat]

theorem peek_zero (r : RState) (init : List Value) (v : Value)
    (h : r.stack = init ++ [v]) :
    r.peek 0 = some v := by
  unfold RState.peek
  rw [h]
  simp

theorem peek_one (r : RState) (init : List Value) (a b : Value)
    (h : r.stack = init ++ [a, b]) :
    r.peek 1 = some a := by
  unfold RState.peek
  rw [h]
  simp
  rw [List.getElem_append_right (Nat.le_refl _)]
  simp

/-- `binary_op!` on a pair that is not two numbers: pop both, push both
back, raise "Operands must be numbers." — the state handed to
`runtime_error` carries the restored stack. -/
theorem binary_op_fail (r : RState) (init : List Value) (x y : Value) (f : F64 → F64 → Value)
    (h : r.stack = init ++ [x, y]) (hnn : (x.is_number && y.is_number) = false) :
    r.binary_op f =
      runtime_error ((({ r with stack := init } : RState).push x).push y)
        ("Operands must be numbers.") := by
  unfold RState.binary_op
  rw [pop_concat r (init ++ [x]) y (by simpa using h)]
  simp only [Option.some_bind, Option.bind_eq_bind]
  rw [pop_concat _ init x rfl]
  simp only [Option.some_bind]
  cases x <;> cases y <;> simp_all [Value.is_number, RState.push]

/-! ### Claim theorems -/

/-- C1: the claim states that `SetGlobal` raises
"Undefined variable '<name>'." when the name is absent from the globals
table and stores `peek(0)` when it is present.  The code inverts the
branches: executing the `a = 3;` bytecode (`SetGlobal` of an undefined
`a` with 3 on the stack) *defines* `a` and runs to `Ok` with no error
output, while `SetGlobal` of a *defined* name raises — and the message
it raises is the uninterpolated literal `Undefined variable '{name}'.`,
not one containing the variable's name. -/
theorem c1_setglobal_inverted :
    ((RState.run 3 c1_absent_state).map (fun p => (p.1.globals, p.1.stack, p.1.errors, p.2)) =
      some ([(⟨1⟩, Value.number (F64.ofInt 3))], [Value.number (F64.ofInt 3)], [],
            InterpretResult.Ok)) ∧
    ((RState.step c1_present_state).map (fun p => (p.1.errors, p.2)) =
      some ([undefined_variable_message, "[line 1] in script"],
            some InterpretResult.RuntimeError)) ∧
    undefined_variable_message ≠ "Undefined variable " ++ squote ++ "a" ++ squote ++ "." :=
  ⟨rfl, rfl, by decide⟩

/-- C2: the claim states `deref(intern(deref h)) = deref h`.  Because
`ObjAllocator::alloc` reads `objects.len()` *after* pushing, the handle
returned by interning `"a"` into a fresh allocator has index 1 while the
sole stored object sits at index 0 — so dereferencing the freshly
interned handle indexes out of bounds (a panic in the source, `none`
here) and the round-trip property cannot hold. -/
theorem c2_intern_deref_off_by_one :
    (ObjAllocator.new.intern ("a")).1.index = 1 ∧
    (ObjAllocator.new.intern ("a")).2.objects = ["a"] ∧
    (ObjAllocator.new.intern ("a")).2.deref (ObjAllocator.new.intern ("a")).1 = none :=
  ⟨rfl, rfl, rfl⟩

set_option maxRecDepth 8000 in
set_option maxHeartbeats 1000000 in
/-- C3: the claim states that `print 1 + 2 * 3;` runs to `Ok` printing
`7`.  In the code (source given a trailing newline, as a file has):
(1) the whole pipeline panics — after the single declaration is parsed
the parser rests on `Eof`, and the `match_token(Eof)` loop head of
`compile()` calls the scanner once more, whose `peek()` unwraps `None`
past the end of the source (conjunct 2 isolates that next scanner call
returning `none` with no fuel involved); (2) the scanner returns the
`Minus` token for `+` and the `Plus` token for `-`, so the compiler
emits `Subtract` for `+`; (3) the chunk actually compiled for the
declaration, completed with the `Return` that `end_compiler` would
append, prints `-5`, not `7`. -/
theorem c3_plus_compiles_to_subtract :
    interpret 25 ("print 1 + 2 * 3;\n") = none ∧
    (do
      let c ← Compiler.new (("print 1 + 2 * 3;\n" : String).toList) ObjAllocator.new Chunk.new
      let c ← Compiler.declaration 20 c
      some (c.parser.current.token_type, c.parser.scanner.scan_token)) =
      some (TokenType.Eof, none) ∧
    ((Scanner.new (("+" : String).toList)).scan_token).map (fun p => p.1.token_type) =
      some TokenType.Minus ∧
    ((Scanner.new (("-" : String).toList)).scan_token).map (fun p => p.1.token_type) =
      some TokenType.Plus ∧
    (do
      let c ← Compiler.new (("print 1 + 2 * 3;\n" : String).toList) ObjAllocator.new Chunk.new
      let c ← Compiler.declaration 20 c
      let p ← RState.run 50
        { stack := [], allocator := c.allocator,
          chunk := c.current_chunk.write Op.Return.toByte 1,
          ip := 0, globals := [], output := [], errors := [] }
      some (p.2, p.1.output, p.1.errors)) =
      some (InterpretResult.Ok, ["-5"], []) :=
  ⟨rfl, rfl, rfl, rfl, rfl⟩

/-- C4 (counterexample to the claim's error message): executing `Add` on
two `Nil` operands raises the runtime error
"Operands must be numbers." — not the claimed
"Operands must be two numbers or two strings.". -/
theorem c4_message_counterexample :
    ((RState.step c4_counter_state).map (fun p => (p.1.errors, p.2)) =
      some (["Operands must be numbers.", "[line 1] in script"],
            some InterpretResult.RuntimeError)) ∧
    ("Operands must be numbers." : String) ≠ "Operands must be two numbers or two strings." :=
  ⟨rfl, by decide⟩

/-- C4 (amended): for every execution of `Add`: two `Number` operands
push their sum; two `String` operands push the interned concatenation
(left operand's content first); any other pair raises a runtime error
whose message is exactly "Operands must be numbers.". -/
theorem c4_add_semantics (r : RState) (b : Nat) (init : List Value) (x y : Value)
    (hb : r.chunk.code.get? r.ip = some b)
    (hop : Op.ofByte b = some Op.Add)
    (hs : r.stack = init ++ [x, y]) :
    (∀ p q, x = Value.number p → y = Value.number q →
      r.step = some ({ r with ip := r.ip + 1, stack := init ++ [Value.number (F64.add p q)] },
                     none)) ∧
    (∀ ra rb sa sb, x = Value.string ra → y = Value.string rb →
      r.allocator.deref ra = some sa → r.allocator.deref rb = some sb →
      r.step = some ({ r with
          ip := r.ip + 1
          allocator := (r.allocator.intern (sa ++ sb)).2
          stack := init ++ [Value.string (r.allocator.intern (sa ++ sb)).1] }, none)) ∧
    ((x.is_number && y.is_number) = false → (x.is_string && y.is_string) = false →
      r.step = runtime_error { r with ip := r.ip + 1 } ("Operands must be numbers.")) := by
  have h1 : ({ r with ip := r.ip + 1 } : RState).stack = init ++ [x, y] := hs
  refine ⟨?_, ?_, ?_⟩
  · intro p q hx hy
    subst hx hy
    unfold RState.step RState.read_byte
    rw [hb]
    simp only [Option.map_some', Option.bind_eq_bind, Option.some_bind]
    rw [hop]
    simp only [Option.some_bind]
    rw [peek_zero _ (init ++ [Value.number p]) (Value.number q) (by simpa using h1),
        peek_one _ init (Value.number p) (Value.number q) h1]
    simp only [Option.some_bind]
    rw [pop_concat _ (init ++ [Value.number p]) (Value.number q) (by simpa using h1)]
    simp only [Option.some_bind]
    rw [pop_concat _ init (Value.number p) rfl]
    simp only [Option.some_bind]
    rfl
  · intro ra rb sa sb hx hy hda hdb
    subst hx hy
    unfold RState.step RState.read_byte
    rw [hb]
    simp only [Option.map_some', Option.bind_eq_bind, Option.some_bind]
    rw [hop]
    simp only [Option.some_bind]
    rw [peek_zero _ (init ++ [Value.string ra]) (Value.string rb) (by simpa using h1),
        peek_one _ init (Value.string ra) (Value.string rb) h1]
    simp only [Option.some_bind]
    rw [show ({ r with ip := r.ip + 1 } : RState).allocator = r.allocator from rfl, hda, hdb]
    simp only [Option.some_bind]
    rw [pop_concat _ (init ++ [Value.string ra]) (Value.string rb) (by simpa using h1)]
    simp only [Option.some_bind]
    rw [pop_concat _ init (Value.string ra) rfl]
    simp only [Option.some_bind]
    rfl
  · intro hnn hss
    unfold RState.step RState.read_byte
    rw [hb]
    simp only [Option.map_some', Option.bind_eq_bind, Option.some_bind]
    rw [hop]
    simp only [Option.some_bind]
    rw [peek_zero _ (init ++ [x]) y (by simpa using h1), peek_one _ init x y h1]
    simp only [Option.some_bind]
    cases x <;> cases y <;> simp_all [Value.is_number, Value.is_string]

/-- C4 witness: `Add` at 1 and 2 pushes their sum. -/
theorem c4_add_semantics_witness :
    RState.step c4_wstate =
      some ({ c4_wstate with
          ip := c4_wstate.ip + 1
          stack := [] ++ [Value.number (F64.add (F64.ofInt 1) (F64.ofInt 2))] }, none) :=
  (c4_add_semantics c4_wstate Op.Add.toByte [] (Value.number (F64.ofInt 1))
      (Value.number (F64.ofInt 2)) rfl rfl rfl).1 (F64.ofInt 1) (F64.ofInt 2) rfl rfl

/-- C5: the claim states that a `/` followed by anything but `/` scans
as the `Slash` token.  Because `peek_next` returns the character at the
cursor (the `/` itself), every `/` is taken for a line comment: on the
source `/x\n` the scanner swallows `/x` and then reports the newline as
"Unexpected character.", and on the source `/` the comment loop's
`peek()` runs past the end of the input and panics (`none`). -/
theorem c5_slash_swallowed_as_comment :
    ((Scanner.new (("/x\n" : String).toList)).scan_token).map
        (fun p => (p.1.token_type, p.1.start, p.1.length)) =
      some (TokenType.Error ("Unexpected character."), 2, 1) ∧
    (Scanner.new (("/" : String).toList)).scan_token = none :=
  ⟨rfl, rfl⟩

/-- C6: the claim states that at end of input `scan_token` returns `Eof`
forever.  In the code `scan_token` first calls `skip_whitespace`, whose
unconditional `peek()` unwraps `None` at the end of the source and
panics (`none` here) — both on an empty source and on the call after the
last real token — the `is_at_end` guard inside `scan_token` is never
reached. -/
theorem c6_scan_token_panics_at_eof :
    (Scanner.new (("" : String).toList)).scan_token = none ∧
    ((Scanner.new ((";" : String).toList)).scan_token).bind (fun p => p.2.scan_token) = none :=
  ⟨rfl, rfl⟩

/-- C7: the claim states `GetGlobal` of an absent name raises exactly
"Undefined variable '<name>'." with the name interpolated.  The code
passes the literal `&str` `"Undefined variable '{name}'."` to
`runtime_error`, which prints it verbatim: the braces are never
interpolated (the dereferenced `name` binding is unused), so the message
differs from the claimed one for the name `"a"`. -/
theorem c7_getglobal_message_not_interpolated :
    ((RState.step c7_state).map (fun p => (p.1.errors, p.2)) =
      some ([undefined_variable_message, "[line 1] in script"],
            some InterpretResult.RuntimeError)) ∧
    undefined_variable_message ≠ "Undefined variable " ++ squote ++ "a" ++ squote ++ "." :=
  ⟨rfl, by decide⟩

/-- C8: for every execution of `Subtract`, `Multiply`, `Divide`,
`Greater`, `Less`, `Negate` or `Add` whose operand type check fails, the
state handed to `runtime_error` (the moment the error is raised, before
the error path clears the stack) carries exactly the operand stack the
instruction started with: `binary_op!` pushes both popped operands back
before raising, and `Add`/`Negate` only peek. -/
theorem c8_failed_check_preserves_stack (r : RState) (b : Nat) (op : Op)
    (hb : r.chunk.code.get? r.ip = some b)
    (hop : Op.ofByte b = some op)
    (hfail : op_type_check_fails op r.stack) :
    ∃ r' m, r.step = runtime_error r' m ∧ r'.stack = r.stack := by
  cases op with
  | Greater =>
    obtain ⟨init, x, y, hs, hnn⟩ := hfail
    refine ⟨(({ r with ip := r.ip + 1, stack := init } : RState).push x).push y,
            "Operands must be numbers.", ?_, ?_⟩
    · unfold RState.step RState.read_byte
      rw [hb]
      simp only [Option.map_some', Option.bind_eq_bind, Option.some_bind]
      rw [hop]
      simp only [Option.some_bind]
      exact binary_op_fail { r with ip := r.ip + 1 } init x y _ hs hnn
    · simp [RState.push, hs]
  | Less =>
    obtain ⟨init, x, y, hs, hnn⟩ := hfail
    refine ⟨(({ r with ip := r.ip + 1, stack := init } : RState).push x).push y,
            "Operands must be numbers.", ?_, ?_⟩
    · unfold RState.step RState.read_byte
      rw [hb]
      simp only [Option.map_some', Option.bind_eq_bind, Option.some_bind]
      rw [hop]
      simp only [Option.some_bind]
      exact binary_op_fail { r with ip := r.ip + 1 } init x y _ hs hnn
    · simp [RState.push, hs]
  | Subtract =>
    obtain ⟨init, x, y, hs, hnn⟩ := hfail
    refine ⟨(({ r with ip := r.ip + 1, stack := init } : RState).push x).push y,
            "Operands must be numbers.", ?_, ?_⟩
    · unfold RState.step RState.read_byte
      rw [hb]
      simp only [Option.map_some', Option.bind_eq_bind, Option.some_bind]
      rw [hop]
      simp only [Option.some_bind]
      exact binary_op_fail { r with ip := r.ip + 1 } init x y _ hs hnn
    · simp [RState.push, hs]
  | Multiply =>
    obtain ⟨init, x, y, hs, hnn⟩ := hfail
    refine ⟨(({ r with ip := r.ip + 1, stack := init } : RState).push x).push y,
            "Operands must be numbers.", ?_, ?_⟩
    · unfold RState.step RState.read_byte
      rw [hb]
      simp only [Option.map_some', Option.bind_eq_bind, Option.some_bind]
      rw [hop]
      simp only [Option.some_bind]
      exact binary_op_fail { r with ip := r.ip + 1 } init x y _ hs hnn
    · simp [RState.push, hs]
  | Divide =>
    obtain ⟨init, x, y, hs, hnn⟩ := hfail
    refine ⟨(({ r with ip := r.ip + 1, stack := init } : RState).push x).push y,
            "Operands must be numbers.", ?_, ?_⟩
    · unfold RState.step RState.read_byte
      rw [hb]
      simp only [Option.map_some', Option.bind_eq_bind, Option.some_bind]
      rw [hop]
      simp only [Option.some_bind]
      exact binary_op_fail { r with ip := r.ip + 1 } init x y _ hs hnn
    · simp [RState.push, hs]
  | Add =>
    obtain ⟨init, x, y, hs, hnn, hss⟩ := hfail
    refine ⟨{ r with ip := r.ip + 1 }, "Operands must be numbers.", ?_, rfl⟩
    have h1 : ({ r with ip := r.ip + 1 } : RState).stack = init ++ [x, y] := hs
    unfold RState.step RState.read_byte
    rw [hb]
    simp only [Option.map_some', Option.bind_eq_bind, Option.some_bind]
    rw [hop]
    simp only [Option.some_bind]
    rw [peek_zero _ (init ++ [x]) y (by simpa using h1), peek_one _ init x y h1]
    simp only [Option.some_bind]
    cases x <;> cases y <;> simp_all [Value.is_number, Value.is_string]
  | Negate =>
    obtain ⟨init, x, hs, hn⟩ := hfail
    refine ⟨{ r with ip := r.ip + 1 }, "Operand must be a number", ?_, rfl⟩
    have h1 : ({ r with ip := r.ip + 1 } : RState).stack = init ++ [x] := hs
    unfold RState.step RState.read_byte
    rw [hb]
    simp only [Option.map_some', Option.bind_eq_bind, Option.some_bind]
    rw [hop]
    simp only [Option.some_bind]
    rw [peek_zero _ init x h1]
    cases x <;> simp_all [Value.is_number]
  | Constant => exact hfail.elim
  | Nil => exact hfail.elim
  | True => exact hfail.elim
  | False => exact hfail.elim
  | Pop => exact hfail.elim
  | GetGlobal => exact hfail.elim
  | DefineGlobal => exact hfail.elim
  | SetGlobal => exact hfail.elim
  | Equal => exact hfail.elim
  | Not => exact hfail.elim
  | Print => exact hfail.elim
  | Return => exact hfail.elim

/-- C8 witness: `Negate` of `Bool(true)` raises with the operand still
on the stack. -/
theorem c8_failed_check_preserves_stack_witness :
    ∃ r' m, RState.step c8_wstate = runtime_error r' m ∧ r'.stack = c8_wstate.stack :=
  c8_failed_check_preserves_stack c8_wstate Op.Negate.toByte Op.Negate rfl rfl
    ⟨[], Value.bool true, rfl, rfl⟩

set_option maxRecDepth 4000 in
/-- C9 (counterexample): with exactly 256 live stack entries, executing
a push instruction does not raise "Stack overflow." — the stack simply
grows to 257 entries and execution continues with no error output. -/
theorem c9_overflow_counterexample :
    (RState.step c9_counter_state).map (fun p => (p.1.stack.length, p.1.errors, p.2)) =
      some (257, [], none) := rfl

/-- C9 (amended): `Runner::push` appends unconditionally — even with the
stack already at `STACK_MAX` (256) live entries it grows the stack by
one and writes no error; `STACK_MAX` is only the vector's initial
capacity reservation. -/
theorem c9_push_unbounded (r : RState) (v : Value) (h : r.stack.length = STACK_MAX) :
    (r.push v).stack.length = STACK_MAX + 1 ∧ (r.push v).errors = r.errors := by
  constructor
  · simp [RState.push, h]
  · rfl

/-- C9 witness: pushing onto a 256-entry stack. -/
theorem c9_push_unbounded_witness :
    (c9_counter_state.push Value.nil).stack.length = STACK_MAX + 1 ∧
    (c9_counter_state.push Value.nil).errors = c9_counter_state.errors :=
  c9_push_unbounded c9_counter_state Value.nil
    (by simp only [c9_counter_state, List.length_replicate, STACK_MAX])

/-- C10: for every execution of `Equal` whose two operands are of
different `Value` variants, the VM pops both, pushes `Bool(false)` and
continues — no runtime error is raised (the state is unchanged except
for the cursor and the stack). -/
theorem c10_equal_mixed_variants (r : RState) (b : Nat) (init : List Value) (x y : Value)
    (hb : r.chunk.code.get? r.ip = some b)
    (hop : Op.ofByte b = some Op.Equal)
    (hs : r.stack = init ++ [x, y])
    (hv : Value.same_variant x y = false) :
    r.step = some ({ r with ip := r.ip + 1, stack := init ++ [Value.bool false] }, none) := by
  have h1 : ({ r with ip := r.ip + 1 } : RState).stack = init ++ [x, y] := hs
  have hne : Value.eqb y x = false := by
    cases x <;> cases y <;> simp_all [Value.eqb, Value.same_variant]
  unfold RState.step RState.read_byte
  rw [hb]
  simp only [Option.map_some', Option.bind_eq_bind, Option.some_bind]
  rw [hop]
  simp only [Option.some_bind]
  rw [pop_concat _ (init ++ [x]) y (by simpa using h1)]
  simp only [Option.some_bind]
  rw [pop_concat _ init x rfl]
  simp only [Option.some_bind]
  rw [hne]
  rfl

/-- C10 witness: `Equal` on `Number(1)` under `Nil` pushes `false`. -/
theorem c10_equal_mixed_variants_witness :
    RState.step c10_wstate =
      some ({ c10_wstate with ip := c10_wstate.ip + 1, stack := [] ++ [Value.bool false] },
            none) :=
  c10_equal_mixed_variants c10_wstate Op.Equal.toByte [] (Value.number (F64.ofInt 1))
    Value.nil rfl rfl rfl rfl

end RVelox
